import Mathlib

/-!
Shallow embedding of the iterative code-generation orchestration engine of
the `builder` repository, and proofs of its specified properties.

Embedded source files:
  * packages/core/summary/rollingSummary.ts  — manifest/digest engine
  * src/inngest/functions.ts  (codeAgentFunction)  — single-run orchestrator,
    tool surface, agent-network loop
  * src/inngest/orchestrator.ts  (orchestrateProjectGeneration) — fan-out/join
  * src/inngest/setup-sandbox.ts (setupSandbox) — assembly/merge step
  * src/lib/conversation.ts  (getConversationContext) — context store

JavaScript data is modelled as follows: a JS object used as a string-keyed
map is an insertion-ordered association list `List (String × α)` with the
object update/lookup operations `objSet`/`objGet` below; `undefined` versus
a present value is `Option`; text whose byte length matters (the digest) is
a `List Char` with `byteLength` summing UTF-8 sizes, so that the
code-unit/byte distinction of `String.prototype.slice` versus
`Buffer.byteLength` is visible (faithful for text in the basic multilingual
plane, where one JS code unit is one character).  External collaborators
(the crypto hash, the clock, the sandbox filesystem, the LLM responses) are
parameters of the definitions that call them.
-/

namespace Builder

/-! ## JS object operations

`objSet m k v` is `m[k] = v` on a JS object: an existing key keeps its
position and gets the new value, a new key is appended.  `objGet` is
property lookup, `objKeys` is `Object.keys`, `objAssign t s` is
`Object.assign(t, s)` (every entry of `s` written into `t` in order). -/

def objSet (m : List (String × α)) (k : String) (v : α) : List (String × α) :=
  match m with
  | [] => [(k, v)]
  | (k0, v0) :: rest => if k0 == k then (k0, v) :: rest else (k0, v0) :: objSet rest k v

def objGet (m : List (String × α)) (k : String) : Option α :=
  match m with
  | [] => none
  | (k0, v0) :: rest => if k0 == k then some v0 else objGet rest k

def objKeys (m : List (String × α)) : List String :=
  m.map Prod.fst

def objAssign (target source : List (String × α)) : List (String × α) :=
  source.foldl (fun acc kv => objSet acc kv.1 kv.2) target

/-- `s.includes(sub)` on JS strings (for a non-empty `sub`). -/
def jsIncludes (s sub : String) : Bool :=
  (s.splitOn sub).length ≥ 2

/-- UTF-8 byte length of text, `Buffer.byteLength(s, 'utf8')`. -/
def byteLength (s : List Char) : Nat :=
  (s.map Char.utf8Size).sum

/-- `s.slice(0, e)` on a JS string (text in the basic multilingual plane):
a non-negative `e` keeps the first `e` units, a negative `e` counts from
the end. -/
def jsSliceTo (s : List Char) (e : Int) : List Char :=
  if 0 ≤ e then s.take e.toNat else s.take (s.length - (-e).toNat)

/-! ## rollingSummary.ts — manifest/digest engine -/

/-- `FileMeta.kind` of rollingSummary.ts. -/
inductive FileKind where
  | code
  | asset
  | doc
deriving DecidableEq, Repr

/-- `FileMeta` of rollingSummary.ts. -/
structure FileMeta where
  path : String
  hash : String
  size : Nat
  kind : FileKind
deriving DecidableEq, Repr

/-- `ProjectManifest` of rollingSummary.ts.  `files` is the JS object
`Record<string, FileMeta>`. -/
structure ProjectManifest where
  files : List (String × FileMeta)
  routes : List String
  models : List String
  env : List String
  lastUpdated : String
deriving DecidableEq, Repr

/-- `RollingSummaryOptions` of rollingSummary.ts: both fields optional. -/
structure RollingSummaryOptions where
  maxDigestBytes : Option Nat
  summariseFn : Option (ProjectManifest → List Char)

/-- `inferKind` of rollingSummary.ts: `/\.(png|jpe?g|gif|svg)$/` is asset,
`/\.(md|txt)$/` is doc, anything else is code. -/
def inferKind (path : String) : FileKind :=
  if [".png", ".jpg", ".jpeg", ".gif", ".svg"].any path.endsWith then .asset
  else if [".md", ".txt"].any path.endsWith then .doc
  else .code

/-- The route filter of `updateRollingSummary`:
`p.startsWith('app/') && p.match(/(page|route)\.[jt]sx?$/)`. -/
def isRouteFile (p : String) : Bool :=
  p.startsWith "app/" &&
    ([".js", ".jsx", ".ts", ".tsx"].any fun ext =>
      p.endsWith ("page" ++ ext) || p.endsWith ("route" ++ ext))

/-- `guessEnvVars` of rollingSummary.ts: any key containing `.env` puts
`DATABASE_URL` into the (single-element) set. -/
def guessEnvVars (files : List (String × FileMeta)) : List String :=
  if (objKeys files).any (fun p => jsIncludes p ".env") then ["DATABASE_URL"] else []

/-- `defaultSummarise` of rollingSummary.ts (`join(', ') || '-'` renders an
empty join as a dash). -/
def defaultSummarise (manifest : ProjectManifest) : List Char :=
  let dash := fun s : String => if s == "" then "-" else s
  (String.intercalate "\n"
    [ "# Project Digest",
      "Files: " ++ toString (objKeys manifest.files).length,
      "Routes: " ++ dash (String.intercalate ", " manifest.routes),
      "Models: " ++ dash (String.intercalate ", " manifest.models),
      "Env: " ++ dash (String.intercalate ", " manifest.env) ]).data

/-- The `changedFiles.forEach` loop of `updateRollingSummary`: each
`(path, content)` pair overwrites `manifest.files[path]` with a fresh
`FileMeta` whose hash comes from the content alone.  `sha1` (an external
crypto call, a fixed pure function of the content bytes) is the parameter
`sha1`. -/
def applyChangedFiles (sha1 : List Char → String)
    (files0 : List (String × FileMeta)) (changedFiles : List (String × List Char)) :
    List (String × FileMeta) :=
  changedFiles.foldl
    (fun fs pc => objSet fs pc.1 ⟨pc.1, sha1 pc.2, byteLength pc.2, inferKind pc.1⟩)
    files0

/-- `updateRollingSummary` of rollingSummary.ts.  `sha1` stands for the
crypto hash and `now` for `new Date().toISOString()` (external
collaborators).  `prev ?? {...empty...}` seeds the manifest, every changed
file overwrites its entry, the derived lists are recomputed from the whole
`files` map, the digest comes from `opts.summariseFn ?? defaultSummarise`
and is truncated — `digest.slice(0, maxBytes - 3) + '...'` — only when
`Buffer.byteLength(digest, 'utf8') > maxBytes` with
`maxBytes = opts.maxDigestBytes ?? 3000`. -/
def updateRollingSummary (sha1 : List Char → String) (now : String)
    (prev : Option ProjectManifest) (changedFiles : List (String × List Char))
    (opts : RollingSummaryOptions) : ProjectManifest × List Char :=
  let m0 := prev.getD ⟨[], [], [], [], now⟩
  let files1 := applyChangedFiles sha1 m0.files changedFiles
  let manifest : ProjectManifest :=
    { files := files1
      routes := (objKeys files1).filter isRouteFile
      models := (objKeys files1).filter (fun p => p.endsWith ".prisma")
      env := guessEnvVars files1
      lastUpdated := now }
  let summarise := opts.summariseFn.getD defaultSummarise
  let digest0 := summarise manifest
  let maxBytes := opts.maxDigestBytes.getD 3000
  let digest :=
    if byteLength digest0 > maxBytes then
      jsSliceTo digest0 ((maxBytes : Int) - 3) ++ ['.', '.', '.']
    else digest0
  (manifest, digest)

/-! ## Sorting by a timestamp key

Prisma `orderBy: { createdAt: 'desc' }` is modelled as an insertion sort
taking the record with the larger key first. -/

def insertByDesc (key : α → Nat) (x : α) : List α → List α
  | [] => [x]
  | y :: rest => if key x ≤ key y then y :: insertByDesc key x rest else x :: y :: rest

def sortByDesc (key : α → Nat) (l : List α) : List α :=
  l.foldr (insertByDesc key) []

/-! ## setup-sandbox.ts — assembly step -/

/-- A persisted fragment row as `setupSandbox` reads it: its creation time
and its `files` JSON column (`null` when absent). -/
structure FragmentRow where
  createdAt : Nat
  files : Option (List (String × String))
deriving DecidableEq, Repr

/-- The merge loop of `setupSandbox` (setup-sandbox.ts lines 40-45):
`const allFiles = {}` then, for each fragment in the given order,
`if (fragment.files) Object.assign(allFiles, fragment.files)`. -/
def mergeFragmentFiles (fragments : List FragmentRow) : List (String × String) :=
  fragments.foldl
    (fun allFiles f =>
      match f.files with
      | some fs => objAssign allFiles fs
      | none => allFiles)
    []

/-- The file-combination part of `setupSandbox` (setup-sandbox.ts lines
29-49): load the project fragments ordered by `createdAt` descending,
`take: 3`, then merge their `files` maps in that (newest-first) order. -/
def setupSandboxFiles (projectFragments : List FragmentRow) : List (String × String) :=
  mergeFragmentFiles ((sortByDesc FragmentRow.createdAt projectFragments).take 3)

/-! ## conversation.ts — conversation context store -/

/-- A `ConversationTurn` row (role, content, creation time). -/
structure ConvTurn where
  role : String
  content : String
  createdAt : Nat
deriving DecidableEq, Repr

/-- The `turns` field computed by `getConversationContext`
(conversation.ts lines 20-45): `findMany` ordered by `createdAt`
descending with `take: 10`, then `turns.reverse()` for chronological
order. -/
def getConversationContextTurns (store : List ConvTurn) : List ConvTurn :=
  ((sortByDesc ConvTurn.createdAt store).take 10).reverse

/-! ## functions.ts — agent-network loop (createNetwork / onResponse)

The network state field `summary` starts unset (modelled as `""`, which is
exactly the falsy values `undefined` and `""` of the JS router check).  One
network iteration is: the router looks at `state.data.summary` — a truthy
summary stops the run, otherwise the single `codeAgent` is dispatched — the
model produces a response whose last assistant text is an optional string,
and the `onResponse` lifecycle hook latches the summary when that text is
truthy and contains the `<task_summary>` marker. -/

structure NetState where
  summary : String
deriving DecidableEq, Repr

/-- `maxIter: 15` of `createNetwork` (functions.ts line 455). -/
def maxIter : Nat := 15

/-- Does a model response set the completion signal?  This is the test of
the `onResponse` hook (functions.ts lines 437-449):
`lastAssistantMessageText && lastAssistantMessageText.includes("<task_summary>")`. -/
def respSetsSignal (r : Option String) : Bool :=
  match r with
  | none => false
  | some t => (t != "") && jsIncludes t "<task_summary>"

/-- The `onResponse` lifecycle hook: a truthy last assistant text containing
the marker is written whole into `state.data.summary`. -/
def onResponse (r : Option String) (st : NetState) : NetState :=
  match r with
  | none => st
  | some t => if (t != "") && jsIncludes t "<task_summary>" then ⟨t⟩ else st

/-- The bounded network loop `network.run` (functions.ts lines 452-464):
while fewer than `maxIter` iterations have run, the router either stops the
run (truthy summary) or dispatches the agent, which consumes the next model
response; the loop also ends when no response remains.  Returns the final
state and the number of dispatches issued. -/
def runNetwork : Nat → List (Option String) → NetState → NetState × Nat
  | 0, _, st => (st, 0)
  | _ + 1, [], st => (st, 0)
  | fuel + 1, r :: rest, st =>
    if st.summary == "" then
      let next := runNetwork fuel rest (onResponse r st)
      (next.1, next.2 + 1)
    else (st, 0)

/-! ## functions.ts — single-run orchestrator (codeAgentFunction) -/

/-- The run state accumulated by one agent run (`AgentState` of
functions.ts): `summary` `""` when unset, `files` `none` when the files map
was never assigned. -/
structure AgentState where
  summary : String
  files : Option (List (String × String))
deriving DecidableEq, Repr

/-- A nested fragment created with a RESULT message (functions.ts lines
504-510). -/
structure FragmentCreate where
  sandboxUrl : String
  title : String
  files : List (String × String)
deriving DecidableEq, Repr

/-- A `prisma.message.create` record of `codeAgentFunction`. -/
structure Message where
  projectId : String
  content : String
  role : String
  type : String
  fragment : Option FragmentCreate
deriving DecidableEq, Repr

/-- A `saveConversationTurn` record of `codeAgentFunction`. -/
structure TurnCreate where
  projectId : String
  role : String
  content : String
deriving DecidableEq, Repr

/-- The project row fields `codeAgentFunction` may update. -/
structure ProjectRow where
  manifest : Option ProjectManifest
  digest : List Char

/-- An event sent with `step.sendEvent` (fields of its `data` payload that
the engine uses; absent fields are `""`). -/
structure SentEvent where
  name : String
  projectId : String
  value : String
  stepType : String
deriving DecidableEq, Repr

/-- Everything `codeAgentFunction` persists or emits in one run. -/
structure RunEffects where
  turns : List TurnCreate
  messages : List Message
  project : ProjectRow
  events : List SentEvent

/-- The error classification of `codeAgentFunction` (functions.ts lines
466-468): `!summary || Object.keys(files || {}).length === 0`. -/
def isError (st : AgentState) : Bool :=
  st.summary == "" || (objKeys (st.files.getD [])).length == 0

/-- The fixed user-facing error message (functions.ts line 492). -/
def errorMessageText : String := "Something went wrong. Please try again."

/-- The persistence tail of `codeAgentFunction`, from the end of
`network.run` to the function's return, with the agent-loop outcome `st`
and the resolved `sandboxUrl` as inputs (`sha1`/`now` stand for the crypto
and clock collaborators used by the manifest update):
  * `save-user-turn` (lines 316-322): a USER turn for the request, always;
  * `update-rolling-summary` (lines 197-224): only when not classified an
    error and the files map is set, `updateRollingSummary` runs over the
    project manifest and the result is written back to the project row
    (any failure inside is caught and logged, leaving the row unchanged);
  * `save-assistant-turn` (lines 477-485): an ASSISTANT turn holding the
    summary, only when not classified an error;
  * `save-result` (lines 487-514): exactly one message — ERROR with the
    fixed text, or RESULT carrying the summary and a fragment with the
    sandbox URL, the title `Fragment` and the files map.
The function body contains no `step.sendEvent` call, so the event trace of
a run is empty. -/
def codeAgentFunction (sha1 : List Char → String) (now : String)
    (project : ProjectRow) (projectId userRequest : String)
    (st : AgentState) (sandboxUrl : String) : RunEffects :=
  let userTurn : TurnCreate := ⟨projectId, "USER", userRequest⟩
  let err := isError st
  let project2 :=
    if !err && st.files.isSome then
      let updated := updateRollingSummary sha1 now project.manifest
        ((st.files.getD []).map (fun pc => (pc.1, pc.2.data))) ⟨none, none⟩
      { manifest := some updated.1, digest := updated.2 }
    else project
  let assistantTurns : List TurnCreate :=
    if !err && st.summary != "" then [⟨projectId, "ASSISTANT", st.summary⟩] else []
  let resultMessage : Message :=
    if err then ⟨projectId, errorMessageText, "ASSISTANT", "ERROR", none⟩
    else ⟨projectId, st.summary, "ASSISTANT", "RESULT",
          some ⟨sandboxUrl, "Fragment", st.files.getD []⟩⟩
  { turns := userTurn :: assistantTurns
    messages := [resultMessage]
    project := project2
    events := [] }

/-! ## functions.ts — the createOrUpdateFiles tool -/

/-- The write loop of the `createOrUpdateFiles` step (functions.ts lines
381-395): each file is written to the sandbox and merged into
`updatedFiles`; the sandbox write is the external call `writeFile` (`none`
means success, `some e` the thrown error text).  On a throw the step
returns the error string; the merges performed before the throw stay in
the accumulated object. -/
def createOrUpdateFilesStep (writeFile : String → String → Option String) :
    List (String × String) → List (String × String) →
    List (String × String) × Option String
  | acc, [] => (acc, none)
  | acc, (p, c) :: rest =>
    match writeFile p c with
    | none => createOrUpdateFilesStep writeFile (objSet acc p c) rest
    | some e => (acc, some ("Error creating or updating files:" ++ e))

/-- The `createOrUpdateFiles` tool handler (functions.ts lines 377-400).
`const updatedFiles = network.state.data.files || {}` binds the very object
held in the network state whenever one is present (a fresh empty object
only when the state holds none), and the loop mutates that object in
place.  Afterwards `network.state.data.files` is re-assigned only when the
step returned an object (`typeof newFiles === "object"`); when the step
returned an error string the re-assignment is skipped, but an aliased
state object already carries every write applied before the failure.
Returns the new state files map and the error string, if any. -/
def createOrUpdateFiles (writeFile : String → String → Option String)
    (stateFiles : Option (List (String × String))) (batch : List (String × String)) :
    Option (List (String × String)) × Option String :=
  let run := createOrUpdateFilesStep writeFile (stateFiles.getD []) batch
  match run.2 with
  | none => (some run.1, none)
  | some e =>
    (match stateFiles with
     | some _ => some run.1
     | none => none, some e)

/-! ## orchestrator.ts — fan-out / AND-join -/

/-- One `code-agent/finished` event occurrence, with its arrival time in
minutes after the orchestrator started waiting. -/
structure FinishedEvent where
  projectId : String
  stepType : String
  arrivalMinutes : Nat
deriving DecidableEq, Repr

/-- The `timeout: "30m"` of each wait condition (orchestrator.ts lines
34-36). -/
def finishedTimeoutMinutes : Nat := 30

/-- One wait condition of `step.waitForEvents` (orchestrator.ts lines
34-36): a `code-agent/finished` event with the given stepType and
projectId, arriving within the timeout. -/
def waitMatch (projectId stepType : String) (finished : List FinishedEvent) : Bool :=
  finished.any fun e =>
    e.projectId == projectId && e.stepType == stepType &&
      decide (e.arrivalMinutes ≤ finishedTimeoutMinutes)

/-- `orchestrateProjectGeneration` (orchestrator.ts): fan out the three
`code-agent/run` events, await all three `code-agent/finished` signals
(an AND-join over the durable-workflow substrate: per spec sections 4.5
and 5, a timeout of any awaited branch is a terminal failure of the join,
so the subsequent step never runs), then send the single `sandbox.setup`
trigger.  The input `finished` lists the finished events that arrive while
waiting; the output is the list of events the orchestrator sends. -/
def orchestrateProjectGeneration (projectId value : String)
    (finished : List FinishedEvent) : List SentEvent :=
  let fanOut : List SentEvent :=
    [⟨"code-agent/run", projectId, value, "frontend"⟩,
     ⟨"code-agent/run", projectId, value, "backend"⟩,
     ⟨"code-agent/run", projectId, value, "database"⟩]
  if waitMatch projectId "frontend" finished &&
     waitMatch projectId "backend" finished &&
     waitMatch projectId "database" finished then
    fanOut ++ [⟨"sandbox.setup", projectId, "", ""⟩]
  else fanOut

/-! ## Lemmas on the JS object operations -/

theorem objGet_objSet (m : List (String × α)) (k k2 : String) (v : α) :
    objGet (objSet m k v) k2 = if k == k2 then some v else objGet m k2 := by
  induction m with
  | nil => simp [objSet, objGet]
  | cons h0 rest ih =>
    obtain ⟨k0, v0⟩ := h0
    by_cases hk : k0 = k
    · subst hk
      by_cases hk2 : k0 = k2 <;> simp [objSet, objGet, hk2]
    · by_cases hk2 : k0 = k2
      · subst hk2
        simp [objSet, objGet, hk, Ne.symm hk, beq_iff_eq]
      · simp [objSet, objGet, hk, hk2, ih]

theorem objGet_eq_none_of_not_mem (m : List (String × α)) (k : String)
    (h : k ∉ objKeys m) : objGet m k = none := by
  induction m with
  | nil => simp [objGet]
  | cons h0 rest ih =>
    obtain ⟨k0, v0⟩ := h0
    simp only [objKeys, List.map_cons, List.mem_cons] at h
    push_neg at h
    simp [objGet, Ne.symm h.1, ih (by simpa [objKeys] using h.2)]

theorem objGet_objAssign (source : List (String × α)) (target : List (String × α))
    (k : String) (hnd : (objKeys source).Nodup) :
    objGet (objAssign target source) k = (objGet source k).or (objGet target k) := by
  induction source generalizing target with
  | nil => simp [objAssign, objGet]
  | cons h0 rest ih =>
    obtain ⟨k0, v0⟩ := h0
    simp only [objKeys, List.map_cons, List.nodup_cons] at hnd
    have step : objAssign target ((k0, v0) :: rest) = objAssign (objSet target k0 v0) rest := by
      simp [objAssign]
    rw [step, ih (objSet target k0 v0) (by simpa [objKeys] using hnd.2)]
    by_cases hk : k0 = k
    · subst hk
      have : objGet rest k0 = none :=
        objGet_eq_none_of_not_mem rest k0 (by simpa [objKeys] using hnd.1)
      simp [objGet, this, objGet_objSet]
    · simp [objGet, hk, objGet_objSet, Ne.symm hk]

/-! ## Lemmas on byte length -/

theorem byteLength_append (a b : List Char) :
    byteLength (a ++ b) = byteLength a + byteLength b := by
  simp [byteLength]

theorem byteLength_replicate (n : Nat) (c : Char) :
    byteLength (List.replicate n c) = n * c.utf8Size := by
  simp [byteLength, List.map_replicate, List.sum_replicate, smul_eq_mul]

/-! ## Claims on the manifest/digest engine -/

theorem updateRollingSummary_files (sha1 : List Char → String) (now : String)
    (prev : Option ProjectManifest) (changedFiles : List (String × List Char))
    (opts : RollingSummaryOptions) :
    (updateRollingSummary sha1 now prev changedFiles opts).1.files =
      applyChangedFiles sha1 (prev.getD ⟨[], [], [], [], now⟩).files changedFiles := rfl

/-- C8: applying `updateRollingSummary` twice with the same `(path, content)`
pair yields the same `FileMeta` entry for that path both times — the entry
`{ path, hash: sha1(content), size: byteLength(content), kind: inferKind(path) }`
— whatever the timestamps, options and prior manifest, because the hash is
derived from the content alone and the entry is overwritten unconditionally
per path (rollingSummary.ts lines 140-147). -/
theorem c8_filemeta_idempotent (sha1 : List Char → String) (t1 t2 : String)
    (prev : Option ProjectManifest) (path : String) (content : List Char)
    (opts1 opts2 : RollingSummaryOptions) :
    objGet (updateRollingSummary sha1 t2
        (some (updateRollingSummary sha1 t1 prev [(path, content)] opts1).1)
        [(path, content)] opts2).1.files path =
      objGet (updateRollingSummary sha1 t1 prev [(path, content)] opts1).1.files path ∧
    objGet (updateRollingSummary sha1 t1 prev [(path, content)] opts1).1.files path =
      some ⟨path, sha1 content, byteLength content, inferKind path⟩ := by
  have meta : FileMeta := ⟨path, sha1 content, byteLength content, inferKind path⟩
  have h : ∀ (p : Option ProjectManifest) (t : String) (o : RollingSummaryOptions),
      objGet (updateRollingSummary sha1 t p [(path, content)] o).1.files path =
        some ⟨path, sha1 content, byteLength content, inferKind path⟩ := by
    intro p t o
    rw [updateRollingSummary_files]
    simp [applyChangedFiles, objGet_objSet]
  exact ⟨by rw [h, h], h prev t1 opts1⟩

/-- C4 (failing input): with the default cap of 3000 bytes, a summarizer
output of 1001 euro signs (3 UTF-8 bytes each, 3003 bytes) passes the
byte-length check `Buffer.byteLength(digest, 'utf8') > maxBytes`, but
`digest.slice(0, maxBytes - 3)` counts string units, keeps all 1001
characters, and the appended marker makes the returned digest 3006 bytes —
above the cap the engine is supposed to guarantee
(rollingSummary.ts lines 157-160). -/
theorem c4_digest_cap_exceeded :
    3000 < byteLength (updateRollingSummary (fun _ => "") "t" none []
      ⟨none, some (fun _ => List.replicate 1001 '€')⟩).2 := by
  have hsize : Char.utf8Size '€' = 3 := by decide
  have hrep : byteLength (List.replicate 1001 '€') = 3003 := by
    rw [byteLength_replicate, hsize]
  have hdig : (updateRollingSummary (fun _ => "") "t" none []
      ⟨none, some (fun _ => List.replicate 1001 '€')⟩).2 =
      List.replicate 1001 '€' ++ ['.', '.', '.'] := by
    simp only [updateRollingSummary, Option.getD_none, Option.getD_some]
    rw [if_pos (by rw [hrep]; norm_num)]
    have : jsSliceTo (List.replicate 1001 '€') (((3000 : Nat) : Int) - 3) =
        List.replicate 1001 '€' := by
      rw [jsSliceTo, if_pos (by norm_num)]
      rw [show (((3000 : Nat) : Int) - 3).toNat = 2997 by decide, List.take_replicate]
      rw [show (2997 : Nat) ⊓ 1001 = 1001 by decide]
    rw [this]
  rw [hdig, byteLength_append, hrep]
  have : byteLength ['.', '.', '.'] = 3 := by decide
  rw [this]
  norm_num

/-! ## Claims on the single-run orchestrator -/

/-- C1: the persisted message of a run is the ERROR record — with the fixed
text `Something went wrong. Please try again.` and no fragment — exactly
when the run state's completion signal is empty or its accumulated files
map is empty (the two triggers are independent: the `if` condition is their
disjunction), and otherwise it is the single RESULT record carrying the
summary, the files and the sandbox preview URL (functions.ts lines 466-468
and 487-514).  `messages` lists every `prisma.message.create` of the run,
so exactly one record is persisted either way. -/
theorem c1_save_result_classification (sha1 : List Char → String) (now : String)
    (project : ProjectRow) (projectId userRequest : String)
    (st : AgentState) (sandboxUrl : String) :
    (codeAgentFunction sha1 now project projectId userRequest st sandboxUrl).messages =
      [if st.summary = "" ∨ st.files.getD [] = [] then
        ⟨projectId, errorMessageText, "ASSISTANT", "ERROR", none⟩
      else
        ⟨projectId, st.summary, "ASSISTANT", "RESULT",
          some ⟨sandboxUrl, "Fragment", st.files.getD []⟩⟩] := by
  by_cases h1 : st.summary = "" <;> by_cases h2 : st.files.getD [] = [] <;>
    simp [codeAgentFunction, isError, objKeys, h1, h2, List.length_eq_zero]

/-- C2 (evaluation at the failing input): a successfully completing run —
here a run with a marker summary and a non-empty files map — sends no event
at all: the body of `codeAgentFunction` contains no `step.sendEvent`, so in
particular no `code-agent/finished` event ever reaches the orchestrator's
AND-join. -/
theorem c2_no_finished_event_emitted :
    (codeAgentFunction (fun _ => "h") "2024-01-01" ⟨none, []⟩ "p1" "build a todo app"
      ⟨"<task_summary>done</task_summary>", some [("app/page.tsx", "x")]⟩
      "https://preview").events = [] := rfl

/-- C7: on an error-classified run (no completion signal or no files) the
persisted side effects are exactly the fixed ERROR message plus the
unconditional USER turn for the incoming request: no ASSISTANT-role
conversation turn is saved (functions.ts lines 477-485 guard on
`!isError`), and the project row — manifest and digest — is left unchanged
(the `update-rolling-summary` step, functions.ts lines 197-224, only runs
on non-error outcomes). -/
theorem c7_error_run_frame (sha1 : List Char → String) (now : String)
    (project : ProjectRow) (projectId userRequest : String)
    (st : AgentState) (sandboxUrl : String)
    (h : st.summary = "" ∨ st.files.getD [] = []) :
    (codeAgentFunction sha1 now project projectId userRequest st sandboxUrl).project =
      project ∧
    (codeAgentFunction sha1 now project projectId userRequest st sandboxUrl).turns =
      [⟨projectId, "USER", userRequest⟩] ∧
    (codeAgentFunction sha1 now project projectId userRequest st sandboxUrl).messages =
      [⟨projectId, errorMessageText, "ASSISTANT", "ERROR", none⟩] := by
  have herr : isError st = true := by
    rcases h with h1 | h2
    · simp [isError, h1]
    · simp [isError, objKeys, h2]
  refine ⟨?_, ?_, ?_⟩ <;> simp [codeAgentFunction, herr]

/-- C7 at a concrete error run: an agent state with no completion signal
and no files map leaves the project row untouched and records only the
USER turn and the fixed ERROR message. -/
theorem c7_error_run_frame_witness :
    (codeAgentFunction (fun _ => "") "t" ⟨none, []⟩ "p" "make it blue"
        ⟨"", none⟩ "https://u").project = (⟨none, []⟩ : ProjectRow) ∧
    (codeAgentFunction (fun _ => "") "t" ⟨none, []⟩ "p" "make it blue"
        ⟨"", none⟩ "https://u").turns = [⟨"p", "USER", "make it blue"⟩] ∧
    (codeAgentFunction (fun _ => "") "t" ⟨none, []⟩ "p" "make it blue"
        ⟨"", none⟩ "https://u").messages =
      [⟨"p", errorMessageText, "ASSISTANT", "ERROR", none⟩] :=
  c7_error_run_frame (fun _ => "") "t" ⟨none, []⟩ "p" "make it blue"
    ⟨"", none⟩ "https://u" (Or.inl rfl)

/-! ## Lemmas on the descending insertion sort -/

theorem mem_insertByDesc (key : α → Nat) (x y : α) (l : List α) :
    y ∈ insertByDesc key x l ↔ y = x ∨ y ∈ l := by
  induction l with
  | nil => simp [insertByDesc]
  | cons h t ih =>
    by_cases hc : key x ≤ key h
    · simp only [insertByDesc, if_pos hc, List.mem_cons, ih]
      tauto
    · simp only [insertByDesc, if_neg hc, List.mem_cons]

theorem perm_insertByDesc (key : α → Nat) (x : α) (l : List α) :
    List.Perm (insertByDesc key x l) (x :: l) := by
  induction l with
  | nil => rfl
  | cons h t ih =>
    by_cases hc : key x ≤ key h
    · simpa [insertByDesc, hc] using ((ih.cons h).trans (List.Perm.swap x h t))
    · simp [insertByDesc, hc]

theorem perm_sortByDesc (key : α → Nat) (l : List α) :
    List.Perm (sortByDesc key l) l := by
  induction l with
  | nil => rfl
  | cons h t ih =>
    exact (perm_insertByDesc key h (sortByDesc key t)).trans (ih.cons h)

theorem pairwise_insertByDesc (key : α → Nat) (x : α) (l : List α)
    (h : List.Pairwise (fun a b => key b ≤ key a) l) :
    List.Pairwise (fun a b => key b ≤ key a) (insertByDesc key x l) := by
  induction l with
  | nil => simp [insertByDesc]
  | cons hd tl ih =>
    rw [List.pairwise_cons] at h
    by_cases hc : key x ≤ key hd
    · rw [insertByDesc, if_pos hc, List.pairwise_cons]
      refine ⟨fun y hy => ?_, ih h.2⟩
      rcases (mem_insertByDesc key x y tl).mp hy with rfl | hmem
      · exact hc
      · exact h.1 y hmem
    · rw [insertByDesc, if_neg hc, List.pairwise_cons]
      refine ⟨fun y hy => ?_, List.pairwise_cons.mpr h⟩
      rcases List.mem_cons.mp hy with rfl | hmem
      · exact Nat.le_of_lt (Nat.lt_of_not_le hc)
      · exact Nat.le_trans (h.1 y hmem) (Nat.le_of_lt (Nat.lt_of_not_le hc))

theorem pairwise_sortByDesc (key : α → Nat) (l : List α) :
    List.Pairwise (fun a b => key b ≤ key a) (sortByDesc key l) := by
  induction l with
  | nil => simp [sortByDesc]
  | cons h t ih => exact pairwise_insertByDesc key h (sortByDesc key t) ih

/-! ## Claim on the conversation context store -/

/-- C9: `getConversationContext` returns at most 10 turns; they are in
chronological order (non-decreasing `createdAt`, because the store's
most-recent-first retrieval order is reversed before returning,
conversation.ts lines 20-45); each returned turn is a turn of the store;
and the 10 retained turns are the most recent ones — every retained turn's
`createdAt` is at least that of every turn the `take: 10` window dropped. -/
theorem c9_context_turns (store : List ConvTurn) :
    (getConversationContextTurns store).length ≤ 10 ∧
    List.Pairwise (fun a b => a.createdAt ≤ b.createdAt)
      (getConversationContextTurns store) ∧
    (∀ t ∈ getConversationContextTurns store, t ∈ store) ∧
    (∀ a ∈ (sortByDesc ConvTurn.createdAt store).take 10,
      ∀ b ∈ (sortByDesc ConvTurn.createdAt store).drop 10,
        b.createdAt ≤ a.createdAt) := by
  have hsorted := pairwise_sortByDesc ConvTurn.createdAt store
  have htake : List.Pairwise (fun a b => ConvTurn.createdAt b ≤ ConvTurn.createdAt a)
      ((sortByDesc ConvTurn.createdAt store).take 10) :=
    List.Pairwise.sublist (List.take_sublist 10 _) hsorted
  refine ⟨?_, ?_, ?_, ?_⟩
  · simp only [getConversationContextTurns, List.length_reverse, List.length_take]
    exact Nat.min_le_left _ _
  · rw [getConversationContextTurns, List.pairwise_reverse]
    exact htake
  · intro t ht
    rw [getConversationContextTurns, List.mem_reverse] at ht
    exact (perm_sortByDesc ConvTurn.createdAt store).mem_iff.mp
      (List.take_subset 10 _ ht)
  · have hsplit := List.take_append_drop 10 (sortByDesc ConvTurn.createdAt store)
    have := List.pairwise_append.mp (hsplit ▸ hsorted)
    exact this.2.2

/-! ## Claims on the assembly merge -/

/-- C3 (counterexample): two fragments share the path `app/page.tsx`; the
newer one (createdAt 2) holds `NEW`, the older (createdAt 1) holds `OLD`.
`setupSandbox` iterates the newest-first list with
`Object.assign(allFiles, fragment.files)`, so the older fragment's write
lands last and the merged map holds `OLD`, not the newest content. -/
theorem c3_newest_wins_false :
    objGet (setupSandboxFiles
        [⟨2, some [("app/page.tsx", "NEW")]⟩, ⟨1, some [("app/page.tsx", "OLD")]⟩])
      "app/page.tsx" ≠ some "NEW" ∧
    objGet (setupSandboxFiles
        [⟨2, some [("app/page.tsx", "NEW")]⟩, ⟨1, some [("app/page.tsx", "OLD")]⟩])
      "app/page.tsx" = some "OLD" := by
  constructor
  · decide
  · rfl

theorem findSome?_singleton (g : α → Option β) (x : α) :
    List.findSome? g [x] = g x := by
  rw [List.findSome?]
  cases g x <;> simp

theorem objGet_mergeFragmentFiles (fragments : List FragmentRow)
    (acc : List (String × String)) (path : String)
    (h : ∀ f ∈ fragments, ((f.files.getD []).map Prod.fst).Nodup) :
    objGet (fragments.foldl
        (fun allFiles f =>
          match f.files with
          | some fs => objAssign allFiles fs
          | none => allFiles) acc) path =
      (fragments.reverse.findSome? (fun f => objGet (f.files.getD []) path)).or
        (objGet acc path) := by
  induction fragments generalizing acc with
  | nil => simp
  | cons f rest ih =>
    have hne : objGet (match f.files with
        | some fs => objAssign acc fs
        | none => acc) path =
        (objGet (f.files.getD []) path).or (objGet acc path) := by
      cases hf : f.files with
      | none => simp [hf, objGet]
      | some fs =>
        have hnd := h f (List.mem_cons_self f rest)
        rw [hf] at hnd
        simp only [hf, Option.getD_some] at hnd ⊢
        exact objGet_objAssign fs acc path (by simpa [objKeys] using hnd)
    calc objGet ((f :: rest).foldl _ acc) path
        = (rest.reverse.findSome? (fun g => objGet (g.files.getD []) path)).or
            (objGet (match f.files with
              | some fs => objAssign acc fs
              | none => acc) path) := by
          rw [List.foldl_cons]
          exact ih _ (fun g hg => h g (List.mem_cons_of_mem f hg))
      _ = ((f :: rest).reverse.findSome? (fun g => objGet (g.files.getD []) path)).or
            (objGet acc path) := by
          rw [List.reverse_cons, List.findSome?_append, hne,
            findSome?_singleton, Option.or_assoc]

/-- C3 (amended): `setupSandbox` loads the most recent 3 generation
results ordered newest-first (orderBy `createdAt` desc, `take: 3`) and
merges their files maps by iterating that newest-first order with
`Object.assign`, so a later — older — fragment overwrites a shared path:
the merged value of every path is the one from the OLDEST of the loaded
results containing it (the first hit in the reversed load order).  The
hypothesis states the JS-object invariant that each fragment's files map
has unique keys. -/
theorem c3_merge_oldest_wins (projectFragments : List FragmentRow) (path : String)
    (h : ∀ f ∈ projectFragments, ((f.files.getD []).map Prod.fst).Nodup) :
    objGet (setupSandboxFiles projectFragments) path =
      ((sortByDesc FragmentRow.createdAt projectFragments).take 3).reverse.findSome?
        (fun f => objGet (f.files.getD []) path) := by
  rw [setupSandboxFiles, mergeFragmentFiles,
    objGet_mergeFragmentFiles _ [] path (fun f hf =>
      h f ((perm_sortByDesc FragmentRow.createdAt projectFragments).mem_iff.mp
        (List.take_subset 3 _ hf)))]
  simp [objGet]

/-- C3 (amended, at the counterexample input): with the two fragments
above, the merged content of the shared path is the oldest loaded
fragment's value. -/
theorem c3_merge_oldest_wins_witness :
    objGet (setupSandboxFiles
        [⟨2, some [("app/page.tsx", "NEW")]⟩, ⟨1, some [("app/page.tsx", "OLD")]⟩])
      "app/page.tsx" =
      ((sortByDesc FragmentRow.createdAt
          [⟨2, some [("app/page.tsx", "NEW")]⟩,
           ⟨1, some [("app/page.tsx", "OLD")]⟩]).take 3).reverse.findSome?
        (fun f => objGet (f.files.getD []) "app/page.tsx") :=
  c3_merge_oldest_wins
    [⟨2, some [("app/page.tsx", "NEW")]⟩, ⟨1, some [("app/page.tsx", "OLD")]⟩]
    "app/page.tsx" (by decide)

/-! ## Claims on the agent-network loop -/

theorem runNetwork_stopped (fuel : Nat) (responses : List (Option String))
    (st : NetState) (h : ¬ st.summary = "") :
    runNetwork fuel responses st = (st, 0) := by
  cases fuel with
  | zero => rfl
  | succ f =>
    cases responses with
    | nil => rfl
    | cons r rest => simp [runNetwork, h]

theorem runNetwork_dispatches_le (fuel : Nat) (responses : List (Option String))
    (st : NetState) : (runNetwork fuel responses st).2 ≤ fuel := by
  induction fuel generalizing responses st with
  | zero => simp [runNetwork]
  | succ f ih =>
    cases responses with
    | nil => simp [runNetwork]
    | cons r rest =>
      by_cases h : st.summary = ""
      · simpa [runNetwork, h] using ih rest (onResponse r st)
      · simp [runNetwork, h]

theorem runNetwork_cons (fuel : Nat) (r : Option String)
    (rest : List (Option String)) (st : NetState) (h : st.summary = "") :
    runNetwork (fuel + 1) (r :: rest) st =
      ((runNetwork fuel rest (onResponse r st)).1,
       (runNetwork fuel rest (onResponse r st)).2 + 1) := by
  simp [runNetwork, h]

theorem onResponse_summary_empty (r : Option String) (st : NetState)
    (h : st.summary = "") :
    ((onResponse r st).summary = "") ↔ respSetsSignal r = false := by
  cases r with
  | none => simp [onResponse, respSetsSignal, h]
  | some t =>
    cases hb : ((t != "") && jsIncludes t "<task_summary>") with
    | true =>
      have ht : ¬ t = "" := by
        intro he
        subst he
        simp at hb
      simp [onResponse, respSetsSignal, hb, ht]
    | false => simp [onResponse, respSetsSignal, hb, h]

theorem runNetwork_no_signal_before_last (fuel : Nat)
    (responses : List (Option String)) (st : NetState) (h : st.summary = "") :
    ∀ r ∈ responses.take ((runNetwork fuel responses st).2 - 1),
      respSetsSignal r = false := by
  induction fuel generalizing responses st with
  | zero => simp [runNetwork]
  | succ f ih =>
    cases responses with
    | nil => simp [runNetwork]
    | cons r rest =>
      rw [runNetwork_cons f r rest st h]
      cases hn : (runNetwork f rest (onResponse r st)).2 with
      | zero => simp [hn]
      | succ m =>
        have hst2 : (onResponse r st).summary = "" := by
          by_contra hne
          rw [runNetwork_stopped f rest _ hne] at hn
          simp at hn
        have hr : respSetsSignal r = false :=
          (onResponse_summary_empty r st h).mp hst2
        intro r2 hr2
        simp only [hn, Nat.add_sub_cancel, List.take_succ_cons, List.mem_cons] at hr2
        rcases hr2 with rfl | hmem
        · exact hr
        · have := ih rest (onResponse r st) hst2
          rw [hn] at this
          exact this r2 (by simpa using hmem)

theorem runNetwork_summary_empty_iff (fuel : Nat)
    (responses : List (Option String)) (st : NetState) (h : st.summary = "") :
    ((runNetwork fuel responses st).1.summary = "") ↔
      ∀ r ∈ responses.take fuel, respSetsSignal r = false := by
  induction fuel generalizing responses st with
  | zero => simp [runNetwork, h]
  | succ f ih =>
    cases responses with
    | nil => simp [runNetwork, h]
    | cons r rest =>
      rw [runNetwork_cons f r rest st h]
      simp only [List.take_succ_cons, List.mem_cons]
      by_cases hr : respSetsSignal r = false
      · have hst2 : (onResponse r st).summary = "" :=
          (onResponse_summary_empty r st h).mpr hr
        rw [ih rest _ hst2]
        constructor
        · intro hall r2 hr2
          rcases hr2 with rfl | hmem
          · exact hr
          · exact hall r2 hmem
        · intro hall r2 hmem
          exact hall r2 (Or.inr hmem)
      · have hst2 : ¬ (onResponse r st).summary = "" := by
          intro he
          exact hr ((onResponse_summary_empty r st h).mp he)
        rw [runNetwork_stopped f rest _ hst2]
        constructor
        · intro he
          exact absurd he hst2
        · intro hall
          exact absurd (hall r (Or.inl rfl)) hr

theorem runNetwork_keeps_dispatching (fuel : Nat)
    (responses : List (Option String)) (st : NetState) (h : st.summary = "")
    (hend : (runNetwork fuel responses st).1.summary = "") :
    (runNetwork fuel responses st).2 = min fuel responses.length := by
  induction fuel generalizing responses st with
  | zero => simp [runNetwork]
  | succ f ih =>
    cases responses with
    | nil => simp [runNetwork]
    | cons r rest =>
      rw [runNetwork_cons f r rest st h] at hend ⊢
      have hst2 : (onResponse r st).summary = "" := by
        by_contra hne
        rw [runNetwork_stopped f rest _ hne] at hend
        exact hne hend
      rw [ih rest _ hst2 hend]
      simp [List.length_cons, Nat.succ_min_succ]

/-- C6: starting from an unset completion signal, the agent-network loop
(functions.ts lines 437-462) dispatches at most `maxIter = 15` times; every
response consumed before the final one carried no `<task_summary>` marker —
once the signal is set, the router issues no further dispatch; the signal
is still unset at the end exactly when no response in the 15-iteration
window carried the marker (so hitting the ceiling without a signal leaves
the run with no signal, classified like any signal-less run); and while the
signal stays unset the router keeps dispatching the single agent — the
dispatch count is then the full budget (or every available response). -/
theorem c6_agent_loop (responses : List (Option String)) :
    (runNetwork maxIter responses ⟨""⟩).2 ≤ maxIter ∧
    (∀ r ∈ responses.take ((runNetwork maxIter responses ⟨""⟩).2 - 1),
      respSetsSignal r = false) ∧
    ((runNetwork maxIter responses ⟨""⟩).1.summary = "" ↔
      ∀ r ∈ responses.take maxIter, respSetsSignal r = false) ∧
    ((runNetwork maxIter responses ⟨""⟩).1.summary = "" →
      (runNetwork maxIter responses ⟨""⟩).2 = min maxIter responses.length) :=
  ⟨runNetwork_dispatches_le maxIter responses ⟨""⟩,
   runNetwork_no_signal_before_last maxIter responses ⟨""⟩ rfl,
   runNetwork_summary_empty_iff maxIter responses ⟨""⟩ rfl,
   runNetwork_keeps_dispatching maxIter responses ⟨""⟩ rfl⟩

/-! ## Claim on the fan-out / AND-join orchestrator -/

theorem waitMatch_eq_true (projectId stepType : String) (finished : List FinishedEvent) :
    waitMatch projectId stepType finished = true ↔
      ∃ e ∈ finished, e.projectId = projectId ∧ e.stepType = stepType ∧
        e.arrivalMinutes ≤ finishedTimeoutMinutes := by
  simp [waitMatch, List.any_eq_true, and_assoc]

/-- C5: the orchestrator sends the single `sandbox.setup` (assemble)
trigger exactly when, within the 30-minute timeout of each wait, a
`code-agent/finished` event has arrived for the matching projectId for
each of the three distinct stepTypes frontend, backend and database
(orchestrator.ts lines 32-44); and it sends no such trigger exactly when
at least one of the three is missing or late (the AND-join fails
terminally on any timeout). -/
theorem c5_and_join (projectId value : String) (finished : List FinishedEvent) :
    (((orchestrateProjectGeneration projectId value finished).count
        ⟨"sandbox.setup", projectId, "", ""⟩ = 1) ↔
      ((∃ e ∈ finished, e.projectId = projectId ∧ e.stepType = "frontend" ∧
          e.arrivalMinutes ≤ finishedTimeoutMinutes) ∧
       (∃ e ∈ finished, e.projectId = projectId ∧ e.stepType = "backend" ∧
          e.arrivalMinutes ≤ finishedTimeoutMinutes) ∧
       (∃ e ∈ finished, e.projectId = projectId ∧ e.stepType = "database" ∧
          e.arrivalMinutes ≤ finishedTimeoutMinutes))) ∧
    (((orchestrateProjectGeneration projectId value finished).count
        ⟨"sandbox.setup", projectId, "", ""⟩ = 0) ↔
      ¬((∃ e ∈ finished, e.projectId = projectId ∧ e.stepType = "frontend" ∧
          e.arrivalMinutes ≤ finishedTimeoutMinutes) ∧
        (∃ e ∈ finished, e.projectId = projectId ∧ e.stepType = "backend" ∧
          e.arrivalMinutes ≤ finishedTimeoutMinutes) ∧
        (∃ e ∈ finished, e.projectId = projectId ∧ e.stepType = "database" ∧
          e.arrivalMinutes ≤ finishedTimeoutMinutes))) := by
  have hrun : ∀ st : String,
      ((⟨"code-agent/run", projectId, value, st⟩ : SentEvent) ==
        (⟨"sandbox.setup", projectId, "", ""⟩ : SentEvent)) = false := by
    intro st
    rw [beq_eq_false_iff_ne]
    intro hcontra
    have hnames : ("code-agent/run" : String) = "sandbox.setup" :=
      congrArg SentEvent.name hcontra
    exact absurd hnames (by decide)
  have hcount : ∀ b : Bool,
      (if b then
          [⟨"code-agent/run", projectId, value, "frontend"⟩,
           ⟨"code-agent/run", projectId, value, "backend"⟩,
           ⟨"code-agent/run", projectId, value, "database"⟩] ++
            [(⟨"sandbox.setup", projectId, "", ""⟩ : SentEvent)]
        else
          [⟨"code-agent/run", projectId, value, "frontend"⟩,
           ⟨"code-agent/run", projectId, value, "backend"⟩,
           ⟨"code-agent/run", projectId, value, "database"⟩]).count
        (⟨"sandbox.setup", projectId, "", ""⟩ : SentEvent) =
        if b then 1 else 0 := by
    intro b
    cases b <;>
      simp [List.count_cons, List.count_append, List.count_nil, hrun,
        List.count_singleton]
  have hb_iff : (waitMatch projectId "frontend" finished &&
      waitMatch projectId "backend" finished &&
      waitMatch projectId "database" finished) = true ↔
      ((∃ e ∈ finished, e.projectId = projectId ∧ e.stepType = "frontend" ∧
          e.arrivalMinutes ≤ finishedTimeoutMinutes) ∧
       (∃ e ∈ finished, e.projectId = projectId ∧ e.stepType = "backend" ∧
          e.arrivalMinutes ≤ finishedTimeoutMinutes) ∧
       (∃ e ∈ finished, e.projectId = projectId ∧ e.stepType = "database" ∧
          e.arrivalMinutes ≤ finishedTimeoutMinutes)) := by
    rw [Bool.and_eq_true, Bool.and_eq_true,
      waitMatch_eq_true, waitMatch_eq_true, waitMatch_eq_true]
    exact and_assoc
  have hor : orchestrateProjectGeneration projectId value finished =
      if (waitMatch projectId "frontend" finished &&
          waitMatch projectId "backend" finished &&
          waitMatch projectId "database" finished) then
        [⟨"code-agent/run", projectId, value, "frontend"⟩,
         ⟨"code-agent/run", projectId, value, "backend"⟩,
         ⟨"code-agent/run", projectId, value, "database"⟩] ++
          [⟨"sandbox.setup", projectId, "", ""⟩]
      else
        [⟨"code-agent/run", projectId, value, "frontend"⟩,
         ⟨"code-agent/run", projectId, value, "backend"⟩,
         ⟨"code-agent/run", projectId, value, "database"⟩] := rfl
  rw [hor, hcount]
  by_cases hA : ((∃ e ∈ finished, e.projectId = projectId ∧ e.stepType = "frontend" ∧
          e.arrivalMinutes ≤ finishedTimeoutMinutes) ∧
       (∃ e ∈ finished, e.projectId = projectId ∧ e.stepType = "backend" ∧
          e.arrivalMinutes ≤ finishedTimeoutMinutes) ∧
       (∃ e ∈ finished, e.projectId = projectId ∧ e.stepType = "database" ∧
          e.arrivalMinutes ≤ finishedTimeoutMinutes))
  · have hb : (waitMatch projectId "frontend" finished &&
        waitMatch projectId "backend" finished &&
        waitMatch projectId "database" finished) = true := hb_iff.mpr hA
    rw [hb]
    simp [hA]
  · have hb : (waitMatch projectId "frontend" finished &&
        waitMatch projectId "backend" finished &&
        waitMatch projectId "database" finished) = false :=
      Bool.eq_false_iff.mpr (fun h => hA (hb_iff.mp h))
    rw [hb]
    simp [hA]

/-! ## Claims on the createOrUpdateFiles tool -/

/-- The sandbox-write collaborator for the C10 scenario: writing `c.txt`
throws, every other write succeeds. -/
def c10writeFile : String → String → Option String :=
  fun p _ => if p == "c.txt" then some "boom" else none

/-- C10 (counterexample): a batch whose second write fails, issued while
the run state already tracks `a.txt`.  The tool returns an error string,
yet the tracked files map is NOT left as it was before the batch: the
state object aliased by `updatedFiles` already carries `b.txt`, the write
applied earlier in the same batch. -/
theorem c10_state_unchanged_false :
    (createOrUpdateFiles c10writeFile (some [("a.txt", "1")])
        [("b.txt", "2"), ("c.txt", "x")]).1 ≠ some [("a.txt", "1")] ∧
    (createOrUpdateFiles c10writeFile (some [("a.txt", "1")])
        [("b.txt", "2"), ("c.txt", "x")]).1 =
      some [("a.txt", "1"), ("b.txt", "2")] ∧
    (createOrUpdateFiles c10writeFile (some [("a.txt", "1")])
        [("b.txt", "2"), ("c.txt", "x")]).2 =
      some "Error creating or updating files:boom" := by
  refine ⟨by decide, rfl, rfl⟩

theorem createOrUpdateFilesStep_ok_front
    (writeFile : String → String → Option String) (pre : List (String × String))
    (rest : List (String × String)) (acc : List (String × String))
    (hpre : ∀ q ∈ pre, writeFile q.1 q.2 = none) :
    createOrUpdateFilesStep writeFile acc (pre ++ rest) =
      createOrUpdateFilesStep writeFile (objAssign acc pre) rest := by
  induction pre generalizing acc with
  | nil => simp [objAssign]
  | cons q qs ih =>
    obtain ⟨p, c⟩ := q
    have hq : writeFile p c = none := hpre (p, c) (List.mem_cons_self _ _)
    rw [List.cons_append, createOrUpdateFilesStep, hq]
    exact ih (objSet acc p c) (fun q hq2 => hpre q (List.mem_cons_of_mem _ hq2))

/-- C10 (amended): when a write throws mid-batch, the tool returns the
`Error creating or updating files:` string and the step's object holds the
prior map merged with the prefix of the batch written before the failure.
Because `updatedFiles` aliases the tracked map whenever the run state
already holds one, those prefix entries remain recorded in
`network.state.data.files` despite the skipped re-assignment; only when no
files map existed before the batch (first write of the run) does the
tracked state stay unchanged. -/
theorem c10_partial_batch_recorded (writeFile : String → String → Option String)
    (m : List (String × String)) (pre : List (String × String)) (p c : String)
    (post : List (String × String))
    (hpre : ∀ q ∈ pre, writeFile q.1 q.2 = none)
    (hfail : writeFile p c ≠ none) :
    (∃ e, createOrUpdateFiles writeFile (some m) (pre ++ (p, c) :: post) =
        (some (objAssign m pre), some ("Error creating or updating files:" ++ e))) ∧
    (createOrUpdateFiles writeFile none (pre ++ (p, c) :: post)).1 = none := by
  obtain ⟨e, he⟩ := Option.ne_none_iff_exists.mp hfail
  have hstep : ∀ base, createOrUpdateFilesStep writeFile base (pre ++ (p, c) :: post) =
      (objAssign base pre, some ("Error creating or updating files:" ++ e)) := by
    intro base
    rw [createOrUpdateFilesStep_ok_front writeFile pre _ base hpre,
      createOrUpdateFilesStep, ← he]
  constructor
  · refine ⟨e, ?_⟩
    simp [createOrUpdateFiles, hstep]
  · simp [createOrUpdateFiles, hstep]

/-- C10 (amended, at the counterexample input): the failed batch leaves
the prior tracked map merged with the successfully written `b.txt`, and an
untracked state (no prior files map) stays untracked. -/
theorem c10_partial_batch_recorded_witness :
    (∃ e, createOrUpdateFiles c10writeFile (some [("a.txt", "1")])
        ([("b.txt", "2")] ++ ("c.txt", "x") :: []) =
        (some (objAssign [("a.txt", "1")] [("b.txt", "2")]),
         some ("Error creating or updating files:" ++ e))) ∧
    (createOrUpdateFiles c10writeFile none
        ([("b.txt", "2")] ++ ("c.txt", "x") :: [])).1 = none :=
  c10_partial_batch_recorded c10writeFile [("a.txt", "1")] [("b.txt", "2")]
    "c.txt" "x" [] (by decide) (by decide)

end Builder
